import Mathlib

/-!
Verification of the AI request-orchestration layer of this repository.

The definitions below are shallow embeddings of the TypeScript sources:
  * `src/vs/workbench/services/ai/common/aiErrors.ts` (error taxonomy,
    `DefaultErrorHandler`),
  * `src/vs/workbench/services/ai/common/contextProvider.ts`
    (`AIServiceManager`: `executeWithRetry`, `switchModel`,
    `getCodeCompletion`, `parseCompletionResponse`),
  * `src/vs/workbench/services/ai/common/aiService.ts`
    (`ModelConfigurationService`),
  * `src/vs/workbench/services/ai/common/localModelService.ts`
    (streaming chunk handling in `makeStreamingRequest` /
    `sendStreamRequest`),
  * the in-memory vector store `MemoryVectorStore` (`hybridSearch`,
    `similaritySearch`, `cosineSimilarity`).

JavaScript `Map` objects are modelled as insertion-ordered association
lists; asynchronous methods are modelled as pure functions whose external
effects (network results, validation probes, fired events) appear as
explicit parameters and outputs.
-/

set_option autoImplicit false

namespace VsAi

/-! ## Error taxonomy (`aiErrors.ts`) -/

/-- The `AIErrorCode` enum of `aiErrors.ts`. -/
inductive AIErrorCode where
  | CONNECTION_FAILED
  | TIMEOUT
  | NETWORK_ERROR
  | INVALID_API_KEY
  | AUTHENTICATION_FAILED
  | AUTHORIZATION_FAILED
  | MODEL_NOT_FOUND
  | MODEL_UNAVAILABLE
  | MODEL_OVERLOADED
  | INVALID_REQUEST
  | CONTEXT_TOO_LARGE
  | RATE_LIMITED
  | QUOTA_EXCEEDED
  | INVALID_RESPONSE
  | PARSING_ERROR
  | INCOMPLETE_RESPONSE
  | SERVICE_UNAVAILABLE
  | CONFIGURATION_ERROR
  | INTERNAL_ERROR
  | REASONING_FAILED
  | ACTION_FAILED
  | RAG_SEARCH_FAILED
  | EMBEDDING_FAILED
  deriving DecidableEq, Repr

/-- The `AIError` class of `aiErrors.ts`: code, message, `retryable`
flag (default `false`) and optional `retryAfter` duration in
milliseconds.  The untyped `details` payload is not modelled; no claim
depends on it. -/
structure AIError where
  code : AIErrorCode
  message : String
  retryable : Bool := false
  retryAfter : Option Nat := none
  deriving DecidableEq, Repr

/-- `AIError.modelNotFound` of `aiErrors.ts` (the source interpolates the
model id between single quotes inside the message). -/
def AIError.modelNotFound (modelId : String) : AIError :=
  { code := .MODEL_NOT_FOUND
    message := "Model " ++ modelId ++ " not found"
    retryable := false
    retryAfter := none }

/-- `DefaultErrorHandler.shouldRetry` of `aiErrors.ts`. -/
def shouldRetry (e : AIError) : Bool :=
  e.retryable

/-- `DefaultErrorHandler.getRetryDelay` of `aiErrors.ts`:
`Math.min(baseDelay * Math.pow(2, attempt), 30000)` where
`baseDelay = error.retryAfter || 1000` and `attempt` is the 0-based
loop counter of `executeWithRetry`.  A `retryAfter` of `0` is falsy in
JavaScript, so `||` replaces it by `1000` as well. -/
def getRetryDelay (e : AIError) (attempt : Nat) : Nat :=
  let baseDelay := match e.retryAfter with
    | some n => if n = 0 then 1000 else n
    | none => 1000
  min (baseDelay * 2 ^ attempt) 30000

/-! ## `AIServiceManager.executeWithRetry` (`contextProvider.ts`)

The loop `for (let attempt = 0; attempt < maxRetries; attempt++)` is
modelled by recursion on the number of remaining iterations (`fuel`,
initially `maxRetries`).  The provider operation is a function from the
0-based attempt index to its outcome on that attempt; thrown values are
`AIError`s (on which the `handleError` conversion of the source is the
identity).  The cancellation token is a function from the attempt index
to whether `isCancellationRequested` holds when the iteration starts. -/

/-- The `AIError` thrown by `executeWithRetry` when the cancellation
token is set at the top of an iteration. -/
def cancellationError : AIError :=
  { code := .TIMEOUT
    message := "Operation cancelled"
    retryable := false
    retryAfter := none }

/-- Observable outcome of one `executeWithRetry` call: how many times
the operation was invoked, the sleeps performed (in order, in ms), and
the returned value or thrown error. -/
structure RetryRun (α : Type) where
  attempts : Nat
  delays : List Nat
  result : Except AIError α
  deriving Repr

/-- The loop body of `executeWithRetry`, one constructor case per
remaining iteration.  `fuel = 0` corresponds to falling off the end of
the loop (`throw this.handleError(lastError)`); it is unreachable for
`maxRetries ≥ 1` started at `attempt = 0`. -/
def retryGo {α : Type} (op : Nat → Except AIError α) (cancelled : Nat → Bool)
    (maxRetries : Nat) : Nat → Nat → RetryRun α
  | _, 0 =>
      { attempts := 0, delays := []
        result := .error { code := .INTERNAL_ERROR, message := "Unknown error" } }
  | attempt, fuel + 1 =>
      if cancelled attempt then
        { attempts := 0, delays := [], result := .error cancellationError }
      else
        match op attempt with
        | .ok v => { attempts := 1, delays := [], result := .ok v }
        | .error err =>
            if !shouldRetry err || attempt == maxRetries - 1 then
              { attempts := 1, delays := [], result := .error err }
            else
              let rest := retryGo op cancelled maxRetries (attempt + 1) fuel
              { attempts := rest.attempts + 1
                delays := getRetryDelay err attempt :: rest.delays
                result := rest.result }

/-- `AIServiceManager.executeWithRetry` with its default
`maxRetries = 3`. -/
def executeWithRetry {α : Type} (op : Nat → Except AIError α)
    (cancelled : Nat → Bool) (maxRetries : Nat := 3) : RetryRun α :=
  retryGo op cancelled maxRetries 0 maxRetries

/-! ## `AIServiceManager.getCodeCompletion` (`contextProvider.ts`) -/

/-- The fields of the normalized `IAIResponse` that
`parseCompletionResponse` reads. -/
structure AIResponse where
  content : String
  confidence : ℚ
  deriving DecidableEq, Repr

/-- An `ICompletionItem` as built by `parseCompletionResponse`
(`kind: 1` is `CompletionItemKind.Text`). -/
structure CompletionItem where
  text : String
  insertText : String
  kind : Nat
  confidence : ℚ
  deriving DecidableEq, Repr

/-- `AIServiceManager.parseCompletionResponse`. -/
def parseCompletionResponse (r : AIResponse) : List CompletionItem :=
  [{ text := r.content, insertText := r.content, kind := 1,
     confidence := r.confidence }]

/-- `AIServiceManager.getCodeCompletion`, from the point where the
provider has been resolved and the prompt built: it runs the provider
request through `executeWithRetry`; on success it parses the response,
and on a thrown classified error it fires the `onDidError` event and
resolves to the empty completion list.  Output: the resolved completion
items and the list of `onDidError` events fired. -/
def getCodeCompletion (op : Nat → Except AIError AIResponse)
    (cancelled : Nat → Bool) : List CompletionItem × List AIError :=
  match (executeWithRetry op cancelled).result with
  | .ok r => (parseCompletionResponse r, [])
  | .error e => ([], [e])

/-! ## `AIServiceManager.switchModel` (`contextProvider.ts`) -/

/-- JavaScript `Map.get`, on an insertion-ordered association list. -/
def mapGet {α : Type} (m : List (String × α)) (k : String) : Option α :=
  (m.find? (fun p => p.1 == k)).map Prod.snd

/-- JavaScript `Map.has`. -/
def mapHas {α : Type} (m : List (String × α)) (k : String) : Bool :=
  m.any (fun p => p.1 == k)

/-- JavaScript `Map.set`: an existing key keeps its insertion position
and gets the new value; a new key is appended. -/
def mapSet {α : Type} (m : List (String × α)) (k : String) (v : α) :
    List (String × α) :=
  if mapHas m k then m.map (fun p => if p.1 == k then (k, v) else p)
  else m ++ [(k, v)]

/-- JavaScript `Map.delete`. -/
def mapDelete {α : Type} (m : List (String × α)) (k : String) :
    List (String × α) :=
  m.filter (fun p => !(p.1 == k))

/-! ## Model configurations (`modelConfiguration.ts` / `aiService.ts`) -/

/-- The fields of `IModelConfiguration` that the registry operations
read or write.  Tunable parameters, capability flags and the
context-window size are carried along unchanged by every registry
operation and are omitted. -/
structure ModelConfig where
  id : String
  name : String
  provider : String
  endpoint : String
  model : String
  apiKey : Option String := none
  isDefault : Bool := false
  enabled : Bool := true
  deriving DecidableEq, Repr

/-- A `Partial<IModelConfiguration>` as passed to
`updateConfiguration`: `none` means the field is absent from the
object. -/
structure ConfigUpdate where
  name : Option String := none
  provider : Option String := none
  endpoint : Option String := none
  model : Option String := none
  apiKey : Option (Option String) := none
  isDefault : Option Bool := none
  enabled : Option Bool := none
  deriving DecidableEq, Repr

/-- The object spread `{ ...existing, ...updates }` of
`updateConfiguration` (`id` is not part of the update type). -/
def applyUpdate (existing : ModelConfig) (u : ConfigUpdate) : ModelConfig :=
  { id := existing.id
    name := u.name.getD existing.name
    provider := u.provider.getD existing.provider
    endpoint := u.endpoint.getD existing.endpoint
    model := u.model.getD existing.model
    apiKey := u.apiKey.getD existing.apiKey
    isDefault := u.isDefault.getD existing.isDefault
    enabled := u.enabled.getD existing.enabled }

/-- The mutable state of `ModelConfigurationService`: the
`configurations` map (insertion-ordered, as a JavaScript `Map`) and
`defaultModelId`.  The storage and secret-storage collaborators only
mirror this state and are not modelled. -/
structure RegistryState where
  configurations : List (String × ModelConfig)
  defaultModelId : Option String
  deriving DecidableEq, Repr

/-- The state of a freshly constructed registry with no persisted
configurations. -/
def initialRegistry : RegistryState :=
  { configurations := [], defaultModelId := none }

/-- The `CONFIGURATION_ERROR` thrown when `validateConfiguration`
reports an invalid configuration. -/
def configurationError (msg : String) : AIError :=
  { code := .CONFIGURATION_ERROR, message := msg }

/-- The loop body of `setDefaultModel`:
`cfg.isDefault = (id === modelId)`. -/
def setFlag (modelId : String) (p : String × ModelConfig) :
    String × ModelConfig :=
  (p.1, { p.2 with isDefault := p.1 == modelId })

/-- `ModelConfigurationService.setDefaultModel`: throws
`modelNotFound` for unknown ids; otherwise sets
`cfg.isDefault = (id === modelId)` on every stored configuration and
records `defaultModelId`.  (It also persists and fires
`onDidChangeDefaultModel`, neither of which touches the modelled
state.) -/
def setDefaultModel (st : RegistryState) (modelId : String) :
    Except AIError RegistryState :=
  if mapHas st.configurations modelId then
    .ok { configurations := st.configurations.map (setFlag modelId)
          defaultModelId := some modelId }
  else
    .error (AIError.modelNotFound modelId)

/-- `ModelConfigurationService.addConfiguration`.
`validationOk` is the outcome of `validateConfiguration` (which ends in
a live connectivity probe, hence is an input of the model).  On
success: strip a present plaintext `apiKey` (it goes to secret
storage), store the configuration, and if it is marked default or is
the only configuration, run `setDefaultModel` on it (which cannot throw
there, the id having just been stored). -/
def addConfiguration (st : RegistryState) (config : ModelConfig)
    (validationOk : Bool) : Except AIError RegistryState :=
  if !validationOk then
    .error (configurationError "Invalid configuration")
  else
    let config' := if config.apiKey.isSome then { config with apiKey := none }
                   else config
    let configs := mapSet st.configurations config.id config'
    let st' : RegistryState :=
      { configurations := configs, defaultModelId := st.defaultModelId }
    if config.isDefault || configs.length == 1 then
      setDefaultModel st' config.id
    else
      .ok st'

/-- `ModelConfigurationService.removeConfiguration`: a missing id is a
no-op; otherwise the configuration is deleted, and if it was the
recorded default, the first remaining configuration is promoted via
`setDefaultModel` (or the default is cleared when none remain). -/
def removeConfiguration (st : RegistryState) (modelId : String) :
    Except AIError RegistryState :=
  if !mapHas st.configurations modelId then
    .ok st
  else
    let configs := mapDelete st.configurations modelId
    let st' : RegistryState :=
      { configurations := configs, defaultModelId := st.defaultModelId }
    if st.defaultModelId == some modelId then
      match configs with
      | [] => .ok { configurations := configs, defaultModelId := none }
      | first :: _ => setDefaultModel st' first.1
    else
      .ok st'

/-- `ModelConfigurationService.updateConfiguration`: throws
`modelNotFound` for unknown ids; merges `{ ...existing, ...updates }`;
throws `CONFIGURATION_ERROR` if validation fails; strips the plaintext
`apiKey` whenever `updates` carries that field; stores the merged
configuration.  Nothing clears the `isDefault` flag of any other
configuration. -/
def updateConfiguration (st : RegistryState) (modelId : String)
    (updates : ConfigUpdate) (validationOk : Bool) :
    Except AIError RegistryState :=
  match mapGet st.configurations modelId with
  | none => .error (AIError.modelNotFound modelId)
  | some existing =>
      let updated := applyUpdate existing updates
      if !validationOk then
        .error (configurationError "Invalid configuration")
      else
        let updated' := if updates.apiKey.isSome then
                          { updated with apiKey := none }
                        else updated
        .ok { st with
                configurations := mapSet st.configurations modelId updated' }

/-- One registry mutation together with the outcome of its validation
probe, the alphabet of the operation sequences in the claims. -/
inductive RegistryOp where
  | add (config : ModelConfig) (validationOk : Bool)
  | remove (modelId : String)
  | setDefault (modelId : String)
  | update (modelId : String) (updates : ConfigUpdate) (validationOk : Bool)
  deriving DecidableEq, Repr

/-- Apply one operation; a thrown `AIError` leaves the state as it was
(every throw in the four operations happens before any mutation). -/
def applyOp (st : RegistryState) : RegistryOp → RegistryState
  | .add config validationOk =>
      match addConfiguration st config validationOk with
      | .ok st' => st'
      | .error _ => st
  | .remove modelId =>
      match removeConfiguration st modelId with
      | .ok st' => st'
      | .error _ => st
  | .setDefault modelId =>
      match setDefaultModel st modelId with
      | .ok st' => st'
      | .error _ => st
  | .update modelId updates validationOk =>
      match updateConfiguration st modelId updates validationOk with
      | .ok st' => st'
      | .error _ => st

/-- Every state observed while running a sequence of operations,
including the initial and final ones. -/
def opTrace (st : RegistryState) : List RegistryOp → List RegistryState
  | [] => [st]
  | op :: ops => st :: opTrace (applyOp st op) ops

/-- Number of stored configurations with `isDefault = true`. -/
def countDefaults (st : RegistryState) : Nat :=
  st.configurations.countP (fun p => p.2.isDefault)

/-- The observation of the default-model invariant: at most one stored
configuration is flagged default. -/
def defaultInvariant (st : RegistryState) : Bool :=
  countDefaults st ≤ 1

/-- `true` unless the operation is an `updateConfiguration` whose
partial carries `isDefault: true`. -/
def opKeepsDefaults : RegistryOp → Bool
  | .update _ u _ => u.isDefault != some true
  | _ => true

/-- `true` for the three operations of the default-invariant claim:
`addConfiguration`, `removeConfiguration` and `setDefaultModel`. -/
def opIsBasic : RegistryOp → Bool
  | .update _ _ _ => false
  | _ => true

/-- A concrete cloud configuration, used as witness input. -/
def sampleConfigA : ModelConfig :=
  { id := "model-a", name := "Model A", provider := "openai"
    endpoint := "https://api.openai.com/v1", model := "gpt-4" }

/-- A concrete local configuration, used as witness input. -/
def sampleConfigB : ModelConfig :=
  { id := "model-b", name := "Model B", provider := "ollama"
    endpoint := "http://localhost:11434", model := "llama3" }

/-! ## `MemoryVectorStore.hybridSearch` (in-memory vector store)

The merge step operates on the two already-scored result arrays; each
result is modelled by its `(id, score)` pair (the carried `content`,
`metadata` and `embedding` fields are copied around unchanged by the
merge).  Scores are exact rationals.  `Array.prototype.sort` with the
comparator `(a, b) => b.score - a.score` is modelled as a stable
insertion sort that places an element before the first strictly
lower-scored one, which is how the comparator orders every pair. -/

/-- Replace the value stored at `k` (`existing.score += ...` mutates
the stored object in place, keeping its map position). -/
def mapAdjust {α : Type} (m : List (String × α)) (k : String) (v : α) :
    List (String × α) :=
  m.map (fun p => if p.1 == k then (k, v) else p)

/-- Insert one scored result in front of the first strictly
lower-scored element (the comparator `b.score - a.score` is negative
exactly there). -/
def insertScored (x : String × ℚ) : List (String × ℚ) → List (String × ℚ)
  | [] => [x]
  | y :: ys => if y.2 < x.2 then x :: y :: ys else y :: insertScored x ys

/-- The descending sort at the end of `hybridSearch`. -/
def sortScoredDesc (l : List (String × ℚ)) : List (String × ℚ) :=
  l.foldr insertScored []

/-- The merge of `MemoryVectorStore.hybridSearch`: weight the text
results into a fresh `combined` map, fold the semantic results over it
(adding the weighted semantic score onto an existing entry, otherwise
inserting the weighted result), then sort descending by score. -/
def hybridMerge (textResults semanticResults : List (String × ℚ))
    (wText wSemantic : ℚ) : List (String × ℚ) :=
  let afterText :=
    textResults.foldl (fun acc r => mapSet acc r.1 (r.2 * wText)) []
  let combined :=
    semanticResults.foldl
      (fun acc r =>
        match mapGet acc r.1 with
        | some existing => mapAdjust acc r.1 (existing + r.2 * wSemantic)
        | none => mapSet acc r.1 (r.2 * wSemantic))
      afterText
  sortScoredDesc combined

/-! ## Local-model streaming (`localModelService.ts`)

`makeStreamingRequest` wraps the transport stream in an iterator that
splits each decoded transport chunk into lines, drops blank lines,
strips one leading `data: ` prefix, trims, and drops empty lines and
the literal `[DONE]` sentinel; every surviving line is yielded.
`sendStreamRequest` consumes those lines: each is `JSON.parse`d and put
through the provider-specific `streamingResponseFormatter`, and truthy
content is yielded to the caller; a parse failure skips the line. -/

/-- JavaScript whitespace, for `String.prototype.trim` (restricted to
the ASCII whitespace that can occur in this newline-delimited
protocol). -/
def isJsWhitespace (c : Char) : Bool :=
  c = ' ' || c = '\t' || c = '\r' || c = '\n'

/-- `line.trim()`. -/
def jsTrim (s : String) : String :=
  String.mk
    (((s.data.dropWhile isJsWhitespace).reverse.dropWhile
      isJsWhitespace).reverse)

/-- Splitting a character list at every newline, keeping empty
pieces. -/
def jsSplitNlAux : List Char → List Char → List (List Char)
  | [], acc => [acc.reverse]
  | c :: cs, acc =>
      if c = '\n' then acc.reverse :: jsSplitNlAux cs []
      else jsSplitNlAux cs (c :: acc)

/-- `text.split("\n")`. -/
def jsSplitNl (s : String) : List String :=
  (jsSplitNlAux s.data []).map String.mk

/-- `line.replace(/^data: /, "")`: drop one leading `data: ` when
present. -/
def stripDataTag (line : String) : String :=
  if line.data.take 6 = "data: ".data then String.mk (line.data.drop 6)
  else line

/-- The per-transport-chunk line processing of
`makeStreamingRequest`. -/
def processTransportChunk (text : String) : List String :=
  (((jsSplitNl text).filter
      (fun l => jsTrim l != "")).map
      (fun l => jsTrim (stripDataTag l))).filter
      (fun l => l != "" && l != "[DONE]")

/-- All lines the `makeStreamingRequest` iterator yields for a given
sequence of decoded transport chunks. -/
def streamLines (chunks : List String) : List String :=
  (chunks.map processTransportChunk).flatten

/-- The content chunks `sendStreamRequest` yields to its consumer, for
an untriggered cancellation token.  `parseChunk` is the composite of
`JSON.parse` and the provider formatter: `none` for a malformed line or
a `null` content field; the `if (content)` guard also drops empty
strings. -/
def sendStreamYields (parseChunk : String → Option String)
    (chunks : List String) : List String :=
  ((streamLines chunks).filterMap parseChunk).filter (fun c => c != "")

/-- The line stream predicted by the claim that the `[DONE]` sentinel
terminates the stream: the same per-line processing, but everything
after the first sentinel line is discarded.  Stated only to be compared
against `streamLines`, which is what the source computes. -/
def streamLinesClaimed (chunks : List String) : List String :=
  ((chunks.map (fun text =>
      ((jsSplitNl text).filter (fun l => jsTrim l != "")).map
        (fun l => jsTrim (stripDataTag l)))).flatten.takeWhile
    (fun l => l != "[DONE]")).filter (fun l => l != "")

/-! ## `executeConversationFlow` (`aiInlineCompletions.ts`) -/

/-- A conversation message as stored by `executeConversationFlow`
(roles are the string literals of the source). -/
structure ChatMsg where
  role : String
  content : String
  deriving DecidableEq, Repr

/-- `array.slice(-n)` for `n ≥ 1`: the last `n` elements. -/
def takeLast {α : Type} (n : Nat) (l : List α) : List α :=
  l.drop (l.length - n)

/-- `executeConversationFlow`, for one call: `stored` is the history
held in `conversationMemory` for the conversation id, `assistantReply`
is the content of the provider response.  JavaScript `||` makes a
`maxHistory` of `0` and an empty `systemPrompt` fall back to the
defaults.  Returns the history passed to `chat` and the history stored
back afterwards. -/
def executeConversationFlow (stored : List ChatMsg) (message : String)
    (maxHistoryOpt : Option Nat) (systemPromptOpt : Option String)
    (assistantReply : String) : List ChatMsg × List ChatMsg :=
  let maxHistory := match maxHistoryOpt with
    | some n => if n = 0 then 10 else n
    | none => 10
  let systemPrompt := match systemPromptOpt with
    | some s => if s = "" then
        "You are a helpful AI assistant with conversation memory." else s
    | none => "You are a helpful AI assistant with conversation memory."
  let history0 := if stored.length = 0 then
      stored ++ [{ role := "system", content := systemPrompt }]
    else stored
  let history1 := history0 ++ [{ role := "user", content := message }]
  let history2 := if history1.length > maxHistory + 1 then
      match history1 with
      | [] => []
      | first :: _ => first :: takeLast maxHistory history1
    else history1
  (history2,
   history2 ++ [{ role := "assistant", content := assistantReply }])

/-! ## `AIServiceManager.switchModel` (`contextProvider.ts`) -/

/-- The service-manager state `switchModel` reads and writes:
`configurations` is the view served by
`modelConfigService.getConfiguration`, `providers` the keys of the
`this.providers` map, `activeModelId` the current selection. -/
structure ManagerState where
  configurations : List (String × ModelConfig)
  providers : List String
  activeModelId : Option String
  deriving DecidableEq, Repr

/-- `AIServiceManager.switchModel`.  Output: the state after the call,
the thrown error (if any), the `onDidChangeActiveModel` events fired,
and the provider requests issued (none: no statement of `switchModel`
calls into a provider). -/
def switchModel (st : ManagerState) (modelId : String) :
    ManagerState × Except AIError Unit × List String × List String :=
  match mapGet st.configurations modelId with
  | none => (st, .error (AIError.modelNotFound modelId), [], [])
  | some config =>
      if st.providers.contains config.provider then
        ({ st with activeModelId := some modelId }, .ok (), [modelId], [])
      else
        (st,
         .error { code := .SERVICE_UNAVAILABLE
                  message := "Provider " ++ config.provider ++ " not available" },
         [], [])

/-! ## `MemoryVectorStore.cosineSimilarity` and `similaritySearch`

The JavaScript number line is modelled by the exact reals extended with
the three IEEE non-finite values; the only operation that can leave the
finite range in `cosineSimilarity` is the final division (`0/0` is
`NaN`; `x/0` is a signed infinity for `x ≠ 0`).  `Math.sqrt` is
`Real.sqrt`.  These definitions are noncomputable exactly where the
source computes with floating-point numbers. -/

/-- A JavaScript number: a finite value, `NaN`, or a signed
infinity. -/
inductive JSNum where
  | num (x : ℝ)
  | nan
  | inf
  | ninf

/-- JavaScript division of finite numbers, landing in `JSNum`. -/
noncomputable def jsDiv (x y : ℝ) : JSNum :=
  if y = 0 then
    if x = 0 then .nan else if 0 < x then .inf else .ninf
  else .num (x / y)

/-- `Σ aᵢ·bᵢ` over the common index range: the `dotProduct`
accumulator of `cosineSimilarity` (the loop runs over `a.length` and
the function is only applied with `a.length === b.length`). -/
def dotProduct (a b : List ℝ) : ℝ :=
  (List.zipWith (fun x y => x * y) a b).sum

/-- `Σ aᵢ²`: the `normA` / `normB` accumulators. -/
def normSq (a : List ℝ) : ℝ :=
  (a.map (fun x => x * x)).sum

/-- `MemoryVectorStore.cosineSimilarity`: mismatched lengths return
`0`; otherwise `dotProduct / (Math.sqrt(normA) * Math.sqrt(normB))`. -/
noncomputable def cosineSimilarity (a b : List ℝ) : JSNum :=
  if a.length ≠ b.length then .num 0
  else jsDiv (dotProduct a b) (Real.sqrt (normSq a) * Real.sqrt (normSq b))

/-- A stored document, reduced to the fields `similaritySearch`
reads (`content`, `metadata` and the result assembly around them carry
through unchanged). -/
structure StoredDoc where
  content : String
  embedding : List ℝ

/-- The comparator `(a, b) => b.score - a.score` of `similaritySearch`
is negative exactly when both scores are finite with `a`
strictly greater, or when `a` is `+∞` against a finite `b` (comparisons
involving `NaN` are never negative). -/
noncomputable def jsCmpNegative (a b : JSNum) : Bool :=
  match a, b with
  | .num x, .num y => decide (y < x)
  | .inf, .num _ => true
  | .num _, .ninf => true
  | .inf, .ninf => true
  | _, _ => false

/-- Insertion step of the sort over `JSNum` scores. -/
noncomputable def insertScoredJS (x : String × JSNum) :
    List (String × JSNum) → List (String × JSNum)
  | [] => [x]
  | y :: ys => if jsCmpNegative x.2 y.2 then x :: y :: ys
               else y :: insertScoredJS x ys

/-- The `sort((a, b) => b.score - a.score)` of `similaritySearch`. -/
noncomputable def sortScoredDescJS (l : List (String × JSNum)) :
    List (String × JSNum) :=
  l.foldr insertScoredJS []

/-- `MemoryVectorStore.similaritySearch`: score every stored document
against the query embedding with `cosineSimilarity`, sort descending by
score, return the first `topK`.  Results are reduced to their
`(id, score)` pairs. -/
noncomputable def similaritySearch (docs : List (String × StoredDoc))
    (embedding : List ℝ) (topK : Nat) : List (String × JSNum) :=
  (sortScoredDescJS
    (docs.map (fun p => (p.1, cosineSimilarity embedding p.2.embedding)))).take
    topK

/-- The good-state predicate of the registry proofs: stored ids are
distinct (a JavaScript `Map` cannot hold duplicate keys) and at most
one stored configuration is flagged default. -/
def RegGood (st : RegistryState) : Prop :=
  (st.configurations.map Prod.fst).Nodup ∧ countDefaults st ≤ 1

/-- The accumulator step of the semantic pass of `hybridSearch`. -/
def semStep (wSemantic : ℚ) (acc : List (String × ℚ)) (r : String × ℚ) :
    List (String × ℚ) :=
  match mapGet acc r.1 with
  | some existing => mapAdjust acc r.1 (existing + r.2 * wSemantic)
  | none => mapSet acc r.1 (r.2 * wSemantic)

/-- A configuration and manager state used as the concrete inputs of
the `switchModel` witness. -/
def sampleManagerConfig : ModelConfig :=
  { id := "gpt-4", name := "GPT-4", provider := "openai"
    endpoint := "https://api.openai.com/v1", model := "gpt-4" }

/-- Concrete manager state for the `switchModel` witness. -/
def sampleManagerState : ManagerState :=
  { configurations := [("gpt-4", sampleManagerConfig)]
    providers := ["openai"]
    activeModelId := none }

/-! ## Lemmas about `executeWithRetry` -/

/-- A sample retryable error (the shape produced by
`AIError.connectionFailed` with a 1000 ms `retryAfter`), used as the
concrete input of witnesses and counterexamples. -/
def sampleRetryableError : AIError :=
  { code := .CONNECTION_FAILED
    message := "Failed to connect to AI service"
    retryable := true
    retryAfter := some 1000 }

theorem retryGo_succ_cancelled {α : Type} (op : Nat → Except AIError α)
    (c : Nat → Bool) (m attempt fuel : Nat) (h : c attempt = true) :
    retryGo op c m attempt (fuel + 1) =
      { attempts := 0, delays := [], result := .error cancellationError } := by
  simp [retryGo, h]

theorem retryGo_succ_error {α : Type} (op : Nat → Except AIError α)
    (c : Nat → Bool) (m attempt fuel : Nat) (e : AIError)
    (hca : c attempt = false) (hoa : op attempt = .error e) :
    retryGo op c m attempt (fuel + 1) =
      if !shouldRetry e || attempt == m - 1 then
        { attempts := 1, delays := [], result := .error e }
      else
        { attempts := (retryGo op c m (attempt + 1) fuel).attempts + 1
          delays := getRetryDelay e attempt ::
            (retryGo op c m (attempt + 1) fuel).delays
          result := (retryGo op c m (attempt + 1) fuel).result } := by
  simp [retryGo, hca, hoa]

theorem range_map_delay (e : AIError) (attempt g : Nat) :
    (List.range (g + 1)).map (fun i => getRetryDelay e (attempt + i)) =
      getRetryDelay e attempt ::
        (List.range g).map (fun i => getRetryDelay e (attempt + 1 + i)) := by
  simp only [List.range_succ_eq_map, List.map_cons, List.map_map,
    Nat.add_zero]
  congr 1
  apply List.map_congr_left
  intro i _
  simp only [Function.comp_apply]
  exact congrArg (getRetryDelay e) (by omega)

theorem retryGo_error_spec {α : Type} (op : Nat → Except AIError α)
    (c : Nat → Bool) (e : AIError) (m : Nat)
    (hop : ∀ i, op i = .error e) (hc : ∀ i, c i = false)
    (he : shouldRetry e = true) :
    ∀ fuel attempt, attempt + fuel = m → 1 ≤ fuel →
      retryGo op c m attempt fuel =
        { attempts := fuel
          delays := (List.range (fuel - 1)).map
            (fun i => getRetryDelay e (attempt + i))
          result := .error e } := by
  intro fuel
  induction fuel with
  | zero => intro attempt _ h2; omega
  | succ f ih =>
      intro attempt h1 _
      rw [retryGo_succ_error op c m attempt f e (hc attempt) (hop attempt)]
      cases f with
      | zero =>
          have hatt : (attempt == m - 1) = true := by
            simp only [beq_iff_eq]; omega
          simp [hatt]
      | succ g =>
          have hne : (attempt == m - 1) = false := by
            simp only [beq_eq_false_iff_ne, ne_eq]; omega
          have hrest := ih (attempt + 1) (by omega) (by omega)
          simp only [he, hne, Bool.not_true, Bool.false_or,
            Bool.false_eq_true, if_false, hrest, Nat.add_sub_cancel,
            Nat.succ_sub_one, RetryRun.mk.injEq]
          exact ⟨trivial, (range_map_delay e attempt g).symm, trivial⟩

theorem retryGo_error_result {α : Type} (op : Nat → Except AIError α)
    (c : Nat → Bool) (e : AIError) (m : Nat)
    (hop : ∀ i, op i = .error e) (hc : ∀ i, c i = false) :
    ∀ fuel attempt, attempt + fuel = m → 1 ≤ fuel →
      (retryGo op c m attempt fuel).result = .error e := by
  intro fuel
  induction fuel with
  | zero => intro attempt _ h2; omega
  | succ f ih =>
      intro attempt h1 _
      rw [retryGo_succ_error op c m attempt f e (hc attempt) (hop attempt)]
      by_cases hr : shouldRetry e
      · cases f with
        | zero =>
            have hatt : (attempt == m - 1) = true := by
              simp only [beq_iff_eq]; omega
            simp [hatt]
        | succ g =>
            have hne : (attempt == m - 1) = false := by
              simp only [beq_eq_false_iff_ne, ne_eq]; omega
            have hrest := ih (attempt + 1) (by omega) (by omega)
            simp [hr, hne, hrest]
      · simp only [Bool.not_eq_true] at hr
        simp [hr]

/-! ## Lemmas about the association-list model of JavaScript maps -/

theorem mapGet_cons {α : Type} (q : String × α) (t : List (String × α))
    (k : String) :
    mapGet (q :: t) k = if q.1 == k then some q.2 else mapGet t k := by
  by_cases h : q.1 == k
  · simp [mapGet, List.find?_cons_of_pos, h]
  · simp only [Bool.not_eq_true] at h
    simp [mapGet, List.find?_cons_of_neg, h]

theorem mapHas_eq_false_iff {α : Type} (m : List (String × α)) (k : String) :
    mapHas m k = false ↔ ∀ p ∈ m, p.1 ≠ k := by
  simp [mapHas, List.any_eq_true]

theorem mapHas_of_mapGet {α : Type} (m : List (String × α)) (k : String)
    (v : α) (h : mapGet m k = some v) : mapHas m k = true := by
  induction m with
  | nil => simp [mapGet] at h
  | cons q t ih =>
      rw [mapGet_cons] at h
      by_cases hq : q.1 == k
      · simp [mapHas, List.any_cons, hq]
      · rw [if_neg hq] at h
        have ht := ih h
        unfold mapHas at ht ⊢
        simp [List.any_cons, ht]

theorem keys_mapSet {α : Type} (m : List (String × α)) (k : String) (v : α) :
    (mapSet m k v).map Prod.fst =
      if mapHas m k then m.map Prod.fst else m.map Prod.fst ++ [k] := by
  unfold mapSet
  by_cases h : mapHas m k
  · simp only [h, if_true, List.map_map]
    apply List.map_congr_left
    intro p _
    by_cases hp : p.1 = k
    · simp [hp]
    · simp [hp]
  · simp [h]

theorem nodup_keys_mapSet {α : Type} (m : List (String × α)) (k : String)
    (v : α) (h : (m.map Prod.fst).Nodup) :
    ((mapSet m k v).map Prod.fst).Nodup := by
  rw [keys_mapSet]
  by_cases hk : mapHas m k
  · simpa [hk] using h
  · have hnot : ∀ p ∈ m, p.1 ≠ k := (mapHas_eq_false_iff m k).mp
      (by simpa using hk)
    have hkmem : k ∉ m.map Prod.fst := by
      simp only [List.mem_map, not_exists]
      rintro p ⟨hp, hpk⟩
      exact hnot p hp hpk
    simp [hk, List.nodup_append, h, hkmem]

theorem nodup_keys_mapDelete {α : Type} (m : List (String × α)) (k : String)
    (h : (m.map Prod.fst).Nodup) :
    ((mapDelete m k).map Prod.fst).Nodup :=
  h.sublist ((List.filter_sublist m).map Prod.fst)

theorem map_replace_id {α : Type} (t : List (String × α)) (k : String)
    (v : α) (h : ∀ p ∈ t, p.1 ≠ k) :
    t.map (fun p => if p.1 == k then (k, v) else p) = t := by
  rw [List.map_congr_left (g := id), List.map_id]
  intro p hp
  simp [h p hp]

/-! ## Lemmas about the default-configuration count -/

theorem snd_setFlag (targetId : String) (p : String × ModelConfig) :
    (setFlag targetId p).2.isDefault = (p.1 == targetId) := rfl

theorem fst_setFlag (targetId : String) (p : String × ModelConfig) :
    (setFlag targetId p).1 = p.1 := rfl

theorem countP_setDefaultFlags (m : List (String × ModelConfig))
    (targetId : String) (h : (m.map Prod.fst).Nodup) :
    (m.map (setFlag targetId)).countP (fun p => p.2.isDefault) ≤ 1 := by
  induction m with
  | nil => simp
  | cons q t ih =>
      simp only [List.map_cons, List.nodup_cons] at h
      obtain ⟨hq, ht⟩ := h
      rw [List.map_cons, List.countP_cons, snd_setFlag]
      by_cases hqt : q.1 = targetId
      · have hzero : (t.map (setFlag targetId)).countP
            (fun p => p.2.isDefault) = 0 := by
          rw [List.countP_eq_zero]
          intro a ha
          obtain ⟨p, hp, rfl⟩ := List.mem_map.mp ha
          rw [snd_setFlag]
          have hne : p.1 ≠ targetId := by
            intro hcontra
            exact hq (List.mem_map.mpr ⟨p, hp, hcontra.trans hqt.symm⟩)
          simp [hne]
        rw [hzero, hqt]
        simp
      · have hbeq : (q.1 == targetId) = false := by simp [hqt]
        rw [hbeq]
        simpa using ih ht

theorem countP_map_replace_le (m : List (String × ModelConfig)) (k : String)
    (v : ModelConfig) (hv : v.isDefault = false) :
    (m.map (fun p => if p.1 == k then (k, v) else p)).countP
        (fun p => p.2.isDefault) ≤
      m.countP (fun p => p.2.isDefault) := by
  induction m with
  | nil => simp
  | cons q t ih =>
      simp only [List.map_cons, List.countP_cons]
      by_cases hq : q.1 == k
      · simp only [hq, if_true, hv]
        simp only [Bool.false_eq_true, if_false]
        omega
      · rw [if_neg hq]
        omega

theorem countP_mapSet_le_of_false (m : List (String × ModelConfig))
    (k : String) (v : ModelConfig) (hv : v.isDefault = false) :
    (mapSet m k v).countP (fun p => p.2.isDefault) ≤
      m.countP (fun p => p.2.isDefault) := by
  unfold mapSet
  by_cases h : mapHas m k
  · simpa [h] using countP_map_replace_le m k v hv
  · simp [h, List.countP_append, hv]

theorem countP_map_replace_eqkey (m : List (String × ModelConfig))
    (k : String) (v ex : ModelConfig) (hnd : (m.map Prod.fst).Nodup)
    (hget : mapGet m k = some ex)
    (himp : v.isDefault = true → ex.isDefault = true) :
    (m.map (fun p => if p.1 == k then (k, v) else p)).countP
        (fun p => p.2.isDefault) ≤
      m.countP (fun p => p.2.isDefault) := by
  induction m with
  | nil => simp [mapGet] at hget
  | cons q t ih =>
      simp only [List.map_cons, List.nodup_cons] at hnd
      obtain ⟨hq, ht⟩ := hnd
      rw [mapGet_cons] at hget
      simp only [List.map_cons, List.countP_cons]
      by_cases hqk : q.1 == k
      · rw [if_pos hqk] at hget
        have hex : ex = q.2 := by
          injection hget with h
          exact h.symm
        have hk : q.1 = k := by simpa using hqk
        have hrepl : t.map (fun p => if p.1 == k then (k, v) else p) = t := by
          apply map_replace_id
          intro p hp
          intro hcontra
          exact hq (List.mem_map.mpr ⟨p, hp, hcontra.trans hk.symm⟩)
        rw [hrepl]
        simp only [hqk, if_true]
        by_cases hvd : v.isDefault
        · have hexd := himp hvd
          rw [hex] at hexd
          simp [hvd, hexd]
        · simp only [Bool.not_eq_true] at hvd
          simp only [hvd, Bool.false_eq_true, if_false]
          omega
      · rw [if_neg hqk] at hget
        rw [if_neg hqk]
        have := ih ht hget
        omega

theorem countP_mapSet_le_of_mem (m : List (String × ModelConfig))
    (k : String) (v ex : ModelConfig) (hnd : (m.map Prod.fst).Nodup)
    (hget : mapGet m k = some ex)
    (himp : v.isDefault = true → ex.isDefault = true) :
    (mapSet m k v).countP (fun p => p.2.isDefault) ≤
      m.countP (fun p => p.2.isDefault) := by
  have hhas : mapHas m k = true :=
    mapHas_of_mapGet m k ex hget
  unfold mapSet
  simpa [hhas] using countP_map_replace_eqkey m k v ex hnd hget himp

theorem keys_map_setFlag (m : List (String × ModelConfig)) (id : String) :
    (m.map (setFlag id)).map Prod.fst = m.map Prod.fst := by
  rw [List.map_map]
  apply List.map_congr_left
  intro p _
  exact fst_setFlag id p

theorem mapGet_eq_none_of_has_false {α : Type} (m : List (String × α))
    (k : String) (h : mapHas m k = false) : mapGet m k = none := by
  induction m with
  | nil => rfl
  | cons q t ih =>
      simp only [mapHas, List.any_cons, Bool.or_eq_false_iff] at h
      rw [mapGet_cons, if_neg (by simp [h.1]), ih]
      exact h.2

theorem mapGet_mapAdjust_self {α : Type} (m : List (String × α))
    (k : String) (v : α) (h : mapHas m k = true) :
    mapGet (mapAdjust m k v) k = some v := by
  induction m with
  | nil => simp [mapHas] at h
  | cons q t ih =>
      by_cases hq : q.1 == k
      · unfold mapAdjust
        rw [List.map_cons, if_pos hq, mapGet_cons]
        simp
      · simp only [mapHas, List.any_cons, hq, Bool.false_or] at h
        unfold mapAdjust
        rw [List.map_cons, if_neg hq, mapGet_cons, if_neg hq]
        exact ih h

theorem mapGet_mapAdjust_ne {α : Type} (m : List (String × α))
    (k other : String) (v : α) (h : other ≠ k) :
    mapGet (mapAdjust m k v) other = mapGet m other := by
  induction m with
  | nil => rfl
  | cons q t ih =>
      unfold mapAdjust at ih ⊢
      rw [List.map_cons]
      by_cases hq : q.1 == k
      · have hqk : q.1 = k := by simpa using hq
        rw [if_pos hq, mapGet_cons, mapGet_cons,
          if_neg (by simp [Ne.symm h]), if_neg (by simp [hqk, Ne.symm h])]
        exact ih
      · rw [if_neg hq, mapGet_cons, mapGet_cons]
        by_cases hqo : q.1 == other
        · rw [if_pos hqo, if_pos hqo]
        · rw [if_neg hqo, if_neg hqo]
          exact ih

theorem mapGet_append_right {α : Type} (m l : List (String × α))
    (k : String) (h : mapHas m k = false) :
    mapGet (m ++ l) k = mapGet l k := by
  induction m with
  | nil => rfl
  | cons q t ih =>
      simp only [mapHas, List.any_cons, Bool.or_eq_false_iff] at h
      rw [List.cons_append, mapGet_cons, if_neg (by simp [h.1])]
      exact ih h.2

theorem mapGet_append_left {α : Type} (m l : List (String × α))
    (k : String) (h : mapHas m k = true) :
    mapGet (m ++ l) k = mapGet m k := by
  induction m with
  | nil => simp [mapHas] at h
  | cons q t ih =>
      rw [List.cons_append, mapGet_cons, mapGet_cons]
      by_cases hq : q.1 == k
      · rw [if_pos hq, if_pos hq]
      · simp only [mapHas, List.any_cons, hq, Bool.false_or] at h
        rw [if_neg hq, if_neg hq]
        exact ih h

theorem mapGet_mapSet_self {α : Type} (m : List (String × α))
    (k : String) (v : α) : mapGet (mapSet m k v) k = some v := by
  unfold mapSet
  by_cases h : mapHas m k
  · rw [if_pos h]
    exact mapGet_mapAdjust_self m k v h
  · rw [Bool.not_eq_true] at h
    rw [if_neg (by simp [h]), mapGet_append_right m _ k h, mapGet_cons]
    simp

theorem mapGet_mapSet_ne {α : Type} (m : List (String × α))
    (k other : String) (v : α) (h : other ≠ k) :
    mapGet (mapSet m k v) other = mapGet m other := by
  unfold mapSet
  by_cases hk : mapHas m k
  · rw [if_pos hk]
    exact mapGet_mapAdjust_ne m k other v h
  · rw [Bool.not_eq_true] at hk
    rw [if_neg (by simp [hk])]
    by_cases ho : mapHas m other
    · exact mapGet_append_left m _ other ho
    · rw [Bool.not_eq_true] at ho
      rw [mapGet_append_right m _ other ho, mapGet_eq_none_of_has_false m
        other ho, mapGet_cons, if_neg (by simp [Ne.symm h])]
      rfl

theorem keys_mapAdjust {α : Type} (m : List (String × α)) (k : String)
    (v : α) : (mapAdjust m k v).map Prod.fst = m.map Prod.fst := by
  unfold mapAdjust
  rw [List.map_map]
  apply List.map_congr_left
  intro p _
  by_cases hp : p.1 = k
  · simp [hp]
  · simp [hp]

theorem countP_mapDelete_le (m : List (String × ModelConfig)) (k : String) :
    (mapDelete m k).countP (fun p => p.2.isDefault) ≤
      m.countP (fun p => p.2.isDefault) :=
  (List.filter_sublist m).countP_le _

theorem preserve_setDefaultModel (st : RegistryState) (modelId : String)
    (st' : RegistryState) (h : setDefaultModel st modelId = .ok st')
    (hnd : (st.configurations.map Prod.fst).Nodup) : RegGood st' := by
  unfold setDefaultModel at h
  by_cases hhas : mapHas st.configurations modelId
  · rw [if_pos hhas] at h
    have hst : st' = { configurations := st.configurations.map (setFlag modelId)
                       defaultModelId := some modelId } :=
      (Except.ok.inj h).symm
    subst hst
    constructor
    · rw [keys_map_setFlag]
      exact hnd
    · exact countP_setDefaultFlags st.configurations modelId hnd
  · rw [if_neg hhas] at h
    exact absurd h (by simp)

theorem preserve_addConfiguration (st : RegistryState) (config : ModelConfig)
    (validationOk : Bool) (st' : RegistryState)
    (h : addConfiguration st config validationOk = .ok st')
    (hnd : (st.configurations.map Prod.fst).Nodup)
    (hcount : countDefaults st ≤ 1) : RegGood st' := by
  cases validationOk with
  | false => exact absurd h (by simp [addConfiguration])
  | true =>
      have hd : addConfiguration st config true =
          (if config.isDefault ||
              (mapSet st.configurations config.id
                (if config.apiKey.isSome then { config with apiKey := none }
                 else config)).length == 1 then
            setDefaultModel
              { configurations := mapSet st.configurations config.id
                  (if config.apiKey.isSome then { config with apiKey := none }
                   else config)
                defaultModelId := st.defaultModelId } config.id
          else
            .ok { configurations := mapSet st.configurations config.id
                    (if config.apiKey.isSome then { config with apiKey := none }
                     else config)
                  defaultModelId := st.defaultModelId }) := rfl
      rw [hd] at h
      have hndc : ((mapSet st.configurations config.id
          (if config.apiKey.isSome then { config with apiKey := none }
           else config)).map Prod.fst).Nodup :=
        nodup_keys_mapSet st.configurations config.id _ hnd
      by_cases hcond : (config.isDefault ||
          (mapSet st.configurations config.id
            (if config.apiKey.isSome then { config with apiKey := none }
             else config)).length == 1) = true
      · rw [if_pos hcond] at h
        exact preserve_setDefaultModel _ config.id st' h hndc
      · rw [if_neg hcond] at h
        have hst : st' = { configurations := mapSet st.configurations config.id
                             (if config.apiKey.isSome then
                               { config with apiKey := none } else config)
                           defaultModelId := st.defaultModelId } :=
          (Except.ok.inj h).symm
        subst hst
        have hflag : (if config.apiKey.isSome then
            { config with apiKey := none } else config).isDefault = false := by
          simp only [Bool.or_eq_true, not_or] at hcond
          by_cases hk : config.apiKey.isSome
          · simpa [hk] using Bool.not_eq_true _ ▸ hcond.1
          · simpa [hk] using Bool.not_eq_true _ ▸ hcond.1
        refine ⟨hndc, le_trans ?_ hcount⟩
        exact countP_mapSet_le_of_false st.configurations config.id _ hflag

theorem preserve_removeConfiguration (st : RegistryState) (modelId : String)
    (st' : RegistryState) (h : removeConfiguration st modelId = .ok st')
    (hnd : (st.configurations.map Prod.fst).Nodup)
    (hcount : countDefaults st ≤ 1) : RegGood st' := by
  unfold removeConfiguration at h
  by_cases hhas : mapHas st.configurations modelId
  · rw [hhas] at h
    simp only [Bool.not_true, Bool.false_eq_true, if_false] at h
    have hndDel : ((mapDelete st.configurations modelId).map Prod.fst).Nodup :=
      nodup_keys_mapDelete st.configurations modelId hnd
    have hcDel : (mapDelete st.configurations modelId).countP
        (fun p => p.2.isDefault) ≤ 1 :=
      le_trans (countP_mapDelete_le st.configurations modelId) hcount
    by_cases hdef : (st.defaultModelId == some modelId) = true
    · rw [if_pos hdef] at h
      cases hconf : mapDelete st.configurations modelId with
      | nil =>
          rw [hconf] at h
          have hst : st' = { configurations := [], defaultModelId := none } :=
            (Except.ok.inj h).symm
          subst hst
          exact ⟨by simp, by simp [countDefaults]⟩
      | cons first rest =>
          rw [hconf] at h
          rw [hconf] at hndDel
          have := preserve_setDefaultModel
            { configurations := first :: rest
              defaultModelId := st.defaultModelId } first.1 st' h hndDel
          exact this
    · rw [if_neg hdef] at h
      have hst : st' = { configurations := mapDelete st.configurations modelId
                         defaultModelId := st.defaultModelId } :=
        (Except.ok.inj h).symm
      subst hst
      exact ⟨hndDel, hcDel⟩
  · rw [Bool.not_eq_true] at hhas
    rw [hhas] at h
    simp only [Bool.not_false, if_true] at h
    have hst : st' = st := (Except.ok.inj h).symm
    subst hst
    exact ⟨hnd, hcount⟩

theorem preserve_updateConfiguration (st : RegistryState) (modelId : String)
    (u : ConfigUpdate) (validationOk : Bool) (st' : RegistryState)
    (h : updateConfiguration st modelId u validationOk = .ok st')
    (hnd : (st.configurations.map Prod.fst).Nodup)
    (hcount : countDefaults st ≤ 1) (hsafe : u.isDefault ≠ some true) :
    RegGood st' := by
  unfold updateConfiguration at h
  cases hget : mapGet st.configurations modelId with
  | none =>
      rw [hget] at h
      exact absurd h (by simp)
  | some existing =>
      rw [hget] at h
      cases validationOk with
      | false => exact absurd h (by simp)
      | true =>
          simp only [Bool.not_true, Bool.false_eq_true, if_false] at h
          have hst : st' = { st with
              configurations := mapSet st.configurations modelId
                (if u.apiKey.isSome then
                  { applyUpdate existing u with apiKey := none }
                 else applyUpdate existing u) } :=
            (Except.ok.inj h).symm
          subst hst
          have hflagle : (if u.apiKey.isSome then
              { applyUpdate existing u with apiKey := none }
             else applyUpdate existing u).isDefault = true →
              existing.isDefault = true := by
            intro hvd
            have hupd : (applyUpdate existing u).isDefault = true := by
              by_cases hk : u.apiKey.isSome
              · simpa [hk] using hvd
              · simpa [hk] using hvd
            rw [applyUpdate] at hupd
            cases hu : u.isDefault with
            | none => simpa [hu] using hupd
            | some b =>
                cases b with
                | true => exact absurd hu hsafe
                | false => simp [hu] at hupd
          refine ⟨nodup_keys_mapSet st.configurations modelId _ hnd,
            le_trans ?_ hcount⟩
          exact countP_mapSet_le_of_mem st.configurations modelId _ existing
            hnd hget hflagle

/-- Every operation other than an `updateConfiguration` carrying
`isDefault: true` preserves distinctness of the stored ids and the
at-most-one-default invariant. -/
theorem applyOp_preserves (st : RegistryState) (op : RegistryOp)
    (hgood : RegGood st) (hsafe : opKeepsDefaults op = true) :
    RegGood (applyOp st op) := by
  obtain ⟨hnd, hcount⟩ := hgood
  cases op with
  | add config validationOk =>
      cases heq : addConfiguration st config validationOk with
      | ok st' =>
          simp only [applyOp, heq]
          exact preserve_addConfiguration st config validationOk st' heq hnd
            hcount
      | error e =>
          simp only [applyOp, heq]
          exact ⟨hnd, hcount⟩
  | remove modelId =>
      cases heq : removeConfiguration st modelId with
      | ok st' =>
          simp only [applyOp, heq]
          exact preserve_removeConfiguration st modelId st' heq hnd hcount
      | error e =>
          simp only [applyOp, heq]
          exact ⟨hnd, hcount⟩
  | setDefault modelId =>
      cases heq : setDefaultModel st modelId with
      | ok st' =>
          simp only [applyOp, heq]
          exact preserve_setDefaultModel st modelId st' heq hnd
      | error e =>
          simp only [applyOp, heq]
          exact ⟨hnd, hcount⟩
  | update modelId updates validationOk =>
      cases heq : updateConfiguration st modelId updates validationOk with
      | ok st' =>
          simp only [applyOp, heq]
          refine preserve_updateConfiguration st modelId updates validationOk
            st' heq hnd hcount ?_
          simpa [opKeepsDefaults] using hsafe
      | error e =>
          simp only [applyOp, heq]
          exact ⟨hnd, hcount⟩

theorem opTrace_invariant (ops : List RegistryOp) :
    ∀ st : RegistryState, RegGood st → ops.all opKeepsDefaults = true →
      (opTrace st ops).all defaultInvariant = true := by
  induction ops with
  | nil =>
      intro st hgood _
      simp only [opTrace, List.all_cons, List.all_nil, Bool.and_true]
      simp [defaultInvariant, hgood.2]
  | cons op ops ih =>
      intro st hgood hops
      simp only [List.all_cons, Bool.and_eq_true] at hops
      simp only [opTrace, List.all_cons, Bool.and_eq_true]
      constructor
      · simp [defaultInvariant, hgood.2]
      · exact ih (applyOp st op) (applyOp_preserves st op hgood hops.1) hops.2

/-! ## Lemmas about the hybrid-search merge -/

theorem find?_key_eq_none_iff {α : Type} (m : List (String × α))
    (k : String) :
    m.find? (fun r => r.1 == k) = none ↔ mapHas m k = false := by
  rw [List.find?_eq_none]
  constructor
  · intro h
    rw [← Bool.not_eq_true]
    simp only [mapHas, List.any_eq_true]
    rintro ⟨p, hp, hpk⟩
    exact h p hp hpk
  · intro h p hp
    have := (mapHas_eq_false_iff m k).mp h p hp
    simp [this]

theorem find?_key_of_mem_nodup {α : Type} (m : List (String × α))
    (k : String) (v : α) (hnd : (m.map Prod.fst).Nodup) (hmem : (k, v) ∈ m) :
    m.find? (fun r => r.1 == k) = some (k, v) := by
  induction m with
  | nil => simp at hmem
  | cons q t ih =>
      simp only [List.map_cons, List.nodup_cons] at hnd
      obtain ⟨hq, ht⟩ := hnd
      rcases List.mem_cons.mp hmem with hqe | hte
      · rw [← hqe]
        exact List.find?_cons_of_pos _ (beq_self_eq_true k)
      · have hkt : k ∈ t.map Prod.fst :=
          List.mem_map.mpr ⟨(k, v), hte, rfl⟩
        have hqk : (q.1 == k) = false := by
          simp only [beq_eq_false_iff_ne, ne_eq]
          intro hcontra
          exact hq (hcontra ▸ hkt)
        have hstep : (q :: t).find? (fun r => r.1 == k) =
            t.find? (fun r => r.1 == k) :=
          List.find?_cons_of_neg _ (by simp [hqk])
        rw [hstep]
        exact ih ht hte

theorem mapGet_eq_some_iff {α : Type} (m : List (String × α))
    (hnd : (m.map Prod.fst).Nodup) (k : String) (v : α) :
    mapGet m k = some v ↔ (k, v) ∈ m := by
  constructor
  · intro h
    unfold mapGet at h
    cases hf : m.find? (fun r => r.1 == k) with
    | none => rw [hf] at h; simp at h
    | some p =>
        rw [hf] at h
        simp only [Option.map_some', Option.some.injEq] at h
        have hp := List.mem_of_find?_eq_some hf
        have hpk := List.find?_some hf
        have hpe : p = (k, v) := by
          cases p with
          | mk a b =>
              simp only at h
              simp only [beq_iff_eq] at hpk
              rw [hpk, h]
        exact hpe ▸ hp
  · intro h
    unfold mapGet
    rw [find?_key_of_mem_nodup m k v hnd h]
    rfl

theorem mapGet_foldl_mapSet (f : String × ℚ → ℚ) (tr : List (String × ℚ)) :
    ∀ (acc : List (String × ℚ)) (id : String), (tr.map Prod.fst).Nodup →
      mapGet (tr.foldl (fun a r => mapSet a r.1 (f r)) acc) id =
        (match tr.find? (fun r => r.1 == id) with
         | some r => some (f r)
         | none => mapGet acc id) := by
  induction tr with
  | nil => intro acc id _; rfl
  | cons r rest ih =>
      intro acc id hnd
      simp only [List.map_cons, List.nodup_cons] at hnd
      obtain ⟨hr, hrest⟩ := hnd
      rw [List.foldl_cons, ih _ id hrest]
      by_cases hq : (r.1 == id) = true
      · have hid : r.1 = id := by simpa using hq
        have hnone : rest.find? (fun x => x.1 == id) = none := by
          rw [List.find?_eq_none]
          intro x hx
          simp only [beq_iff_eq]
          intro hcontra
          exact hr (List.mem_map.mpr ⟨x, hx, by rw [hcontra, hid]⟩)
        have hconsfind : (r :: rest).find? (fun x => x.1 == id) = some r :=
          List.find?_cons_of_pos _ hq
        rw [hnone, hconsfind]
        show mapGet (mapSet acc r.1 (f r)) id = some (f r)
        rw [← hid, mapGet_mapSet_self]
      · have hconsfind : (r :: rest).find? (fun x => x.1 == id) =
            rest.find? (fun x => x.1 == id) :=
          List.find?_cons_of_neg _ hq
        rw [hconsfind]
        have hne : id ≠ r.1 := by
          intro hcontra
          exact hq (by simp [hcontra])
        cases hfind : rest.find? (fun x => x.1 == id) with
        | some x => rfl
        | none =>
            show mapGet (mapSet acc r.1 (f r)) id = mapGet acc id
            rw [mapGet_mapSet_ne acc r.1 id (f r) hne]

theorem mapGet_semStep_ne (wS : ℚ) (acc : List (String × ℚ))
    (r : String × ℚ) (id : String) (h : id ≠ r.1) :
    mapGet (semStep wS acc r) id = mapGet acc id := by
  unfold semStep
  cases hget : mapGet acc r.1 with
  | some existing => exact mapGet_mapAdjust_ne acc r.1 id _ h
  | none => exact mapGet_mapSet_ne acc r.1 id _ h

theorem mapGet_foldl_semStep (wS : ℚ) (sr : List (String × ℚ)) :
    ∀ (acc : List (String × ℚ)) (id : String), (sr.map Prod.fst).Nodup →
      mapGet (sr.foldl (semStep wS) acc) id =
        (match sr.find? (fun r => r.1 == id), mapGet acc id with
         | some r, some t => some (t + r.2 * wS)
         | some r, none => some (r.2 * wS)
         | none, o => o) := by
  induction sr with
  | nil => intro acc id _; rfl
  | cons r rest ih =>
      intro acc id hnd
      simp only [List.map_cons, List.nodup_cons] at hnd
      obtain ⟨hr, hrest⟩ := hnd
      rw [List.foldl_cons, ih _ id hrest]
      by_cases hq : (r.1 == id) = true
      · have hid : r.1 = id := by simpa using hq
        subst hid
        have hnone : rest.find? (fun x => x.1 == r.1) = none := by
          rw [List.find?_eq_none]
          intro x hx
          simp only [beq_iff_eq]
          intro hcontra
          exact hr (List.mem_map.mpr ⟨x, hx, hcontra⟩)
        have hconsfind : (r :: rest).find? (fun x => x.1 == r.1) = some r :=
          List.find?_cons_of_pos _ (beq_self_eq_true r.1)
        rw [hnone, hconsfind]
        unfold semStep
        cases hget : mapGet acc r.1 with
        | some existing =>
            rw [mapGet_mapAdjust_self acc r.1 _
              (mapHas_of_mapGet acc r.1 existing hget)]
        | none =>
            rw [mapGet_mapSet_self]
      · have hconsfind : (r :: rest).find? (fun x => x.1 == id) =
            rest.find? (fun x => x.1 == id) :=
          List.find?_cons_of_neg _ hq
        rw [hconsfind]
        have hne : id ≠ r.1 := by
          intro hcontra
          exact hq (by simp [hcontra])
        rw [mapGet_semStep_ne wS acc r id hne]

theorem nodup_keys_mapAdjust {α : Type} (m : List (String × α))
    (k : String) (v : α) (h : (m.map Prod.fst).Nodup) :
    ((mapAdjust m k v).map Prod.fst).Nodup := by
  rw [keys_mapAdjust]
  exact h

theorem nodup_keys_semStep (wS : ℚ) (acc : List (String × ℚ))
    (r : String × ℚ) (h : (acc.map Prod.fst).Nodup) :
    ((semStep wS acc r).map Prod.fst).Nodup := by
  unfold semStep
  cases mapGet acc r.1 with
  | some existing => exact nodup_keys_mapAdjust acc r.1 _ h
  | none => exact nodup_keys_mapSet acc r.1 _ h

theorem nodup_keys_foldl_mapSet (f : String × ℚ → ℚ)
    (tr : List (String × ℚ)) :
    ∀ acc : List (String × ℚ), (acc.map Prod.fst).Nodup →
      (((tr.foldl (fun a r => mapSet a r.1 (f r)) acc)).map Prod.fst).Nodup := by
  induction tr with
  | nil => intro acc h; exact h
  | cons r rest ih =>
      intro acc h
      rw [List.foldl_cons]
      exact ih _ (nodup_keys_mapSet acc r.1 _ h)

theorem nodup_keys_foldl_semStep (wS : ℚ) (sr : List (String × ℚ)) :
    ∀ acc : List (String × ℚ), (acc.map Prod.fst).Nodup →
      ((sr.foldl (semStep wS) acc).map Prod.fst).Nodup := by
  induction sr with
  | nil => intro acc h; exact h
  | cons r rest ih =>
      intro acc h
      rw [List.foldl_cons]
      exact ih _ (nodup_keys_semStep wS acc r h)

theorem mem_insertScored (x z : String × ℚ) (l : List (String × ℚ)) :
    z ∈ insertScored x l ↔ z = x ∨ z ∈ l := by
  induction l with
  | nil => simp [insertScored]
  | cons y ys ih =>
      unfold insertScored
      by_cases h : y.2 < x.2
      · simp only [h, if_true, List.mem_cons]
      · simp only [h, if_false, List.mem_cons, ih]
        tauto

theorem mem_sortScoredDesc (z : String × ℚ) (l : List (String × ℚ)) :
    z ∈ sortScoredDesc l ↔ z ∈ l := by
  induction l with
  | nil => simp [sortScoredDesc]
  | cons y ys ih =>
      show z ∈ insertScored y (sortScoredDesc ys) ↔ z ∈ y :: ys
      rw [mem_insertScored, ih]
      simp [List.mem_cons]

theorem pairwise_insertScored (x : String × ℚ) (l : List (String × ℚ))
    (h : List.Pairwise (fun a b => b.2 ≤ a.2) l) :
    List.Pairwise (fun a b => b.2 ≤ a.2) (insertScored x l) := by
  induction l with
  | nil => simp [insertScored]
  | cons y ys ih =>
      rw [List.pairwise_cons] at h
      obtain ⟨hy, hys⟩ := h
      unfold insertScored
      by_cases hlt : y.2 < x.2
      · rw [if_pos hlt, List.pairwise_cons]
        constructor
        · intro z hz
          rcases List.mem_cons.mp hz with rfl | hzys
          · exact le_of_lt hlt
          · exact le_trans (hy z hzys) (le_of_lt hlt)
        · rw [List.pairwise_cons]
          exact ⟨hy, hys⟩
      · rw [if_neg hlt, List.pairwise_cons]
        constructor
        · intro z hz
          rcases (mem_insertScored x z ys).mp hz with rfl | hzys
          · exact le_of_not_lt hlt
          · exact hy z hzys
        · exact ih hys

theorem pairwise_sortScoredDesc (l : List (String × ℚ)) :
    List.Pairwise (fun a b => b.2 ≤ a.2) (sortScoredDesc l) := by
  induction l with
  | nil => simp [sortScoredDesc]
  | cons y ys ih => exact pairwise_insertScored y (sortScoredDesc ys) ih

/-- Claim C1 (counterexample).  The claim predicts a sleep of
`min(baseDelay * 2^(k-1), 30000)` before attempt `k`; for an operation
that always fails with a retryable error whose `retryAfter` is 1000 ms,
the sleep before attempt 2 is 1000 ms, not the
`min(1000 * 2^(2-1), 30000) = 2000` ms the claim predicts. -/
theorem C1_counterexample :
    (executeWithRetry
        (fun _ => (Except.error sampleRetryableError : Except AIError Nat))
        (fun _ => false) 3).delays[0]? = some 1000 ∧
    (executeWithRetry
        (fun _ => (Except.error sampleRetryableError : Except AIError Nat))
        (fun _ => false) 3).delays[0]? ≠
      some (min (1000 * 2 ^ (2 - 1)) 30000) := by
  decide

/-- Claim C1 (amended).  A provider operation that fails on every
attempt with a retryable error is attempted exactly `maxRetries` times
before the classified error is surfaced, and the sleep before attempt
`k` (1-indexed, `2 ≤ k ≤ maxRetries`) is
`min(baseDelay * 2^(k-2), 30000)` ms, where `baseDelay` is the error's
`retryAfter` value (default 1000): the exponent of the source is the
0-based index of the failed attempt, one less than the claim stated. -/
theorem C1_retry_backoff {α : Type} (op : Nat → Except AIError α)
    (c : Nat → Bool) (e : AIError) (b maxRetries : Nat)
    (hop : ∀ i, op i = .error e) (hc : ∀ i, c i = false)
    (he : e.retryable = true)
    (hb : e.retryAfter = some b ∧ 0 < b ∨ e.retryAfter = none ∧ b = 1000)
    (hm : 1 ≤ maxRetries) :
    (executeWithRetry op c maxRetries).attempts = maxRetries ∧
    (executeWithRetry op c maxRetries).result = .error e ∧
    (executeWithRetry op c maxRetries).delays.length = maxRetries - 1 ∧
    ∀ k, 2 ≤ k → k ≤ maxRetries →
      (executeWithRetry op c maxRetries).delays[k - 2]? =
        some (min (b * 2 ^ (k - 2)) 30000) := by
  have hspec := retryGo_error_spec op c e maxRetries hop hc he maxRetries 0
    (by omega) hm
  have hdelay : ∀ i, getRetryDelay e i = min (b * 2 ^ i) 30000 := by
    intro i
    rcases hb with ⟨hsome, hpos⟩ | ⟨hnone, hval⟩
    · have hb0 : ¬ b = 0 := by omega
      simp [getRetryDelay, hsome, hb0]
    · simp [getRetryDelay, hnone, hval]
  unfold executeWithRetry
  rw [hspec]
  refine ⟨rfl, rfl, by simp, ?_⟩
  intro k h2 hk
  have hlt : k - 2 < maxRetries - 1 := by omega
  simp only [List.getElem?_map, List.getElem?_range hlt, Nat.zero_add,
    hdelay]
  rfl

/-- Claim C1 (witness): at the concrete always-failing retryable
operation with `retryAfter = 1000` and the default `maxRetries = 3`,
exactly 3 attempts are made and the sleep before attempt 2 is
1000 ms. -/
theorem C1_retry_backoff_witness :
    (executeWithRetry
        (fun _ => (Except.error sampleRetryableError : Except AIError Nat))
        (fun _ => false) 3).attempts = 3 ∧
    (executeWithRetry
        (fun _ => (Except.error sampleRetryableError : Except AIError Nat))
        (fun _ => false) 3).delays[0]? = some 1000 := by
  have h := C1_retry_backoff
    (fun _ => (Except.error sampleRetryableError : Except AIError Nat))
    (fun _ => false) sampleRetryableError 1000 3 (fun _ => rfl)
    (fun _ => rfl) rfl (Or.inl ⟨rfl, by omega⟩) (by omega)
  refine ⟨h.1, ?_⟩
  have h2 := h.2.2.2 2 (by omega) (by omega)
  exact h2.trans (by norm_num)

/-- Claim C9.  `getCodeCompletion` (after successful provider
resolution) resolves to the empty completion list after emitting the
error event, rather than rejecting: (a) a triggered cancellation token
makes the retry wrapper throw the TIMEOUT-classified cancellation
error, which `getCodeCompletion` converts into `([], …)`; (b) a
provider request failing on every attempt likewise produces the empty
list with the classified error fired as the only error event. -/
theorem C9_completion_best_effort :
    (∀ op : Nat → Except AIError AIResponse,
       getCodeCompletion op (fun _ => true) = ([], [cancellationError]) ∧
       cancellationError.code = .TIMEOUT) ∧
    (∀ (op : Nat → Except AIError AIResponse) (c : Nat → Bool) (e : AIError),
       (∀ i, op i = .error e) → (∀ i, c i = false) →
       getCodeCompletion op c = ([], [e])) := by
  constructor
  · intro op
    exact ⟨rfl, rfl⟩
  · intro op c e hop hc
    have hres := retryGo_error_result op c e 3 hop hc 3 0 (by omega)
      (by omega)
    simp [getCodeCompletion, executeWithRetry, hres]

/-- Claim C9 (witness): the concrete always-failing retryable
operation resolves to the empty list with its error as the single
fired event. -/
theorem C9_completion_best_effort_witness :
    getCodeCompletion (fun _ => Except.error sampleRetryableError)
      (fun _ => false) = ([], [sampleRetryableError]) :=
  C9_completion_best_effort.2 (fun _ => Except.error sampleRetryableError)
    (fun _ => false) sampleRetryableError (fun _ => rfl) (fun _ => rfl)

/-- Claim C7.  `switchModel` on an id with no configuration rejects
with the model-not-found classified error and leaves `activeModelId`
(and the whole manager state) unchanged; on success the single
`onDidChangeActiveModel` event is fired, no provider request is issued,
and the only state change is `activeModelId`. -/
theorem C7_switchModel (st : ManagerState) (modelId : String) :
    (mapGet st.configurations modelId = none →
       switchModel st modelId =
         (st, .error (AIError.modelNotFound modelId), [], []) ∧
       (AIError.modelNotFound modelId).code = .MODEL_NOT_FOUND ∧
       (switchModel st modelId).1.activeModelId = st.activeModelId) ∧
    (∀ config, mapGet st.configurations modelId = some config →
       st.providers.contains config.provider = true →
       switchModel st modelId =
         ({ st with activeModelId := some modelId }, .ok (), [modelId], [])) := by
  constructor
  · intro h
    refine ⟨?_, rfl, ?_⟩ <;> simp [switchModel, h]
  · intro config h hp
    have hp' : config.provider ∈ st.providers := by simpa using hp
    simp [switchModel, h, hp']

/-- Claim C7 (witness): switching to a nonexistent id on a concrete
state rejects with model-not-found and leaves the state unchanged;
switching to the registered id succeeds with the single event. -/
theorem C7_switchModel_witness :
    switchModel sampleManagerState "nonexistent" =
      (sampleManagerState, .error (AIError.modelNotFound "nonexistent"),
       [], []) ∧
    switchModel sampleManagerState "gpt-4" =
      ({ sampleManagerState with activeModelId := some "gpt-4" }, .ok (),
       ["gpt-4"], []) :=
  ⟨((C7_switchModel sampleManagerState "nonexistent").1 rfl).1,
   (C7_switchModel sampleManagerState "gpt-4").2 sampleManagerConfig rfl rfl⟩

/-- Claim C2.  For every finite sequence of `addConfiguration`,
`removeConfiguration` and `setDefaultModel` operations applied to a
fresh registry (each operation succeeding or throwing according to its
validation outcome and arguments), every state observed between
operations has at most one stored configuration with
`isDefault = true`. -/
theorem C2_default_invariant (ops : List RegistryOp)
    (hops : ops.all opIsBasic = true) :
    (opTrace initialRegistry ops).all defaultInvariant = true := by
  apply opTrace_invariant ops initialRegistry
  · constructor
    · simp [initialRegistry]
    · simp [countDefaults, initialRegistry]
  · rw [List.all_eq_true] at hops ⊢
    intro op hop
    have hbasic := hops op hop
    cases op with
    | add _ _ => rfl
    | remove _ => rfl
    | setDefault _ => rfl
    | update _ _ _ => exact absurd hbasic (by simp [opIsBasic])

/-- Claim C2 (witness): a concrete sequence of two adds, a
`setDefaultModel` and a removal of the current default keeps the
at-most-one-default invariant at every observation point. -/
theorem C2_default_invariant_witness :
    (opTrace initialRegistry
      [.add sampleConfigA true, .add sampleConfigB true,
       .setDefault "model-b", .remove "model-b"]).all
      defaultInvariant = true :=
  C2_default_invariant
    [.add sampleConfigA true, .add sampleConfigB true,
     .setDefault "model-b", .remove "model-b"] (by decide)

/-- Claim C3 (counterexample).  `updateConfiguration` does not
re-enforce the single-default invariant: starting from a fresh
registry, adding two configurations (making the first the default) and
then updating the second with a partial carrying `isDefault: true`
leaves two stored configurations flagged default, while the state
before the update satisfied the invariant. -/
theorem C3_counterexample :
    defaultInvariant
      (applyOp (applyOp initialRegistry (.add sampleConfigA true))
        (.add sampleConfigB true)) = true ∧
    countDefaults
      (applyOp
        (applyOp (applyOp initialRegistry (.add sampleConfigA true))
          (.add sampleConfigB true))
        (.update "model-b" { isDefault := some true } true)) = 2 := by
  decide

/-- Claim C3 (amended).  Every mutation of the registry except an
`updateConfiguration` whose partial sets `isDefault` to `true`
preserves the at-most-one-default invariant; an update whose partial
omits `isDefault` or sets it to `false` is safe, but updating a
configuration to `isDefault = true` while a different configuration is
the default leaves two configurations flagged (see the
counterexample). -/
theorem C3_update_invariant (ops : List RegistryOp)
    (hops : ops.all opKeepsDefaults = true) :
    (opTrace initialRegistry ops).all defaultInvariant = true := by
  apply opTrace_invariant ops initialRegistry _ hops
  constructor
  · simp [initialRegistry]
  · simp [countDefaults, initialRegistry]

/-- Claim C3 (witness): a concrete sequence mixing adds, a rename
update, an `isDefault: false` update and a `setDefaultModel` keeps the
invariant at every observation point. -/
theorem C3_update_invariant_witness :
    (opTrace initialRegistry
      [.add sampleConfigA true, .add sampleConfigB true,
       .update "model-a" { name := some "Renamed" } true,
       .update "model-b" { isDefault := some false } true,
       .setDefault "model-b"]).all defaultInvariant = true :=
  C3_update_invariant
    [.add sampleConfigA true, .add sampleConfigB true,
     .update "model-a" { name := some "Renamed" } true,
     .update "model-b" { isDefault := some false } true,
     .setDefault "model-b"] (by decide)

/-- Claim C5 (counterexample).  On a stored history of a system
message plus 4 prior turns with `maxHistory = 2`, the history retained
before the provider call is the system message plus only the most
recent 1 prior turn plus the new user message — not the system message
plus the 2 most recent prior turns that the claim predicts — because
the new user message is pushed before the history is trimmed. -/
theorem C5_counterexample :
    (executeConversationFlow
      [{ role := "system", content := "sp" },
       { role := "user", content := "m1" },
       { role := "assistant", content := "m2" },
       { role := "user", content := "m3" },
       { role := "assistant", content := "m4" }]
      "new" (some 2) none "reply").1 =
      [{ role := "system", content := "sp" },
       { role := "assistant", content := "m4" },
       { role := "user", content := "new" }] ∧
    (executeConversationFlow
      [{ role := "system", content := "sp" },
       { role := "user", content := "m1" },
       { role := "assistant", content := "m2" },
       { role := "user", content := "m3" },
       { role := "assistant", content := "m4" }]
      "new" (some 2) none "reply").1 ≠
      [{ role := "system", content := "sp" },
       { role := "user", content := "m3" },
       { role := "assistant", content := "m4" },
       { role := "user", content := "new" }] := by
  decide

/-- Claim C5 (amended).  `executeConversationFlow` with
`maxHistory = 2` on a conversation whose stored history already
contains a system message plus 4 prior turns appends the new user
message first and then trims, so it retains exactly the system message
plus the most recent 1 prior turn plus the new user message before the
provider call, and then appends the assistant reply. -/
theorem C5_conversation_trim (sys t1 t2 t3 t4 : ChatMsg)
    (message reply : String) :
    executeConversationFlow [sys, t1, t2, t3, t4] message (some 2) none
        reply =
      ([sys, t4, { role := "user", content := message }],
       [sys, t4, { role := "user", content := message },
        { role := "assistant", content := reply }]) := rfl

/-- Claim C6 (counterexample).  The `[DONE]` sentinel does not
terminate a local-model stream: it is filtered out of the line stream,
and a content line the transport delivers after the sentinel is still
yielded.  For the transport chunks `"data: a\n"` and
`"data: [DONE]\ndata: b\n"` the adapter yields `["a", "b"]`, while the
claimed termination behaviour would yield only `["a"]`; with a
formatter that accepts every line, the consumer receives `"b"` as
well. -/
theorem C6_counterexample :
    streamLines ["data: a\n", "data: [DONE]\ndata: b\n"] = ["a", "b"] ∧
    streamLinesClaimed ["data: a\n", "data: [DONE]\ndata: b\n"] = ["a"] ∧
    streamLines ["data: a\n", "data: [DONE]\ndata: b\n"] ≠
      streamLinesClaimed ["data: a\n", "data: [DONE]\ndata: b\n"] ∧
    sendStreamYields (fun l => some l)
      ["data: a\n", "data: [DONE]\ndata: b\n"] = ["a", "b"] := by
  decide

/-- Claim C6 (amended).  A `[DONE]` line (after stripping the optional
`data: ` prefix) is dropped by the line filter and never surfaces as a
content chunk, but it does not terminate the stream: the line
processing distributes over the transport chunks, so content delivered
after the sentinel is still processed and yielded, and the stream ends
only when the transport ends. -/
theorem C6_done_filtered :
    (∀ chunks : List String,
       (streamLines chunks).all (fun l => l != "[DONE]") = true) ∧
    (∀ c1 c2 : List String,
       streamLines (c1 ++ c2) = streamLines c1 ++ streamLines c2) := by
  constructor
  · intro chunks
    rw [List.all_eq_true]
    intro l hl
    obtain ⟨lines, hlines, hmem⟩ := List.mem_flatten.mp hl
    obtain ⟨c, _, rfl⟩ := List.mem_map.mp hlines
    have := (List.mem_filter.mp hmem).2
    exact (Bool.and_eq_true _ _ ▸ this).2
  · intro c1 c2
    simp [streamLines]

/-- Claim C4.  The hybrid-search merge combines text-scored and
semantic-scored result sets by document id: an id present in both sets
gets score `t·w_text + s·w_semantic`, an id present in only one set
gets that set's score times its weight, and the merged list is sorted
in descending score order; on the concrete inputs
`{(id1, 0.8)}` and `{(id1, 0.6), (id2, 0.5)}` with both weights 1 the
output is `[(id1, 1.4), (id2, 0.5)]`. -/
theorem C4_hybrid_merge (tr sr : List (String × ℚ)) (wT wS : ℚ)
    (h1 : (tr.map Prod.fst).Nodup) (h2 : (sr.map Prod.fst).Nodup) :
    (∀ id t s, (id, t) ∈ tr → (id, s) ∈ sr →
       (id, t * wT + s * wS) ∈ hybridMerge tr sr wT wS) ∧
    (∀ id t, (id, t) ∈ tr → mapHas sr id = false →
       (id, t * wT) ∈ hybridMerge tr sr wT wS) ∧
    (∀ id s, (id, s) ∈ sr → mapHas tr id = false →
       (id, s * wS) ∈ hybridMerge tr sr wT wS) ∧
    List.Pairwise (fun a b => b.2 ≤ a.2) (hybridMerge tr sr wT wS) ∧
    hybridMerge [("id1", 8/10)] [("id1", 6/10), ("id2", 5/10)] 1 1 =
      [("id1", 14/10), ("id2", 5/10)] := by
  have hndA : (((tr.foldl (fun acc r => mapSet acc r.1 (r.2 * wT)) [])).map
      Prod.fst).Nodup :=
    nodup_keys_foldl_mapSet (fun r => r.2 * wT) tr [] (by simp)
  have hndC : ((sr.foldl (semStep wS)
      (tr.foldl (fun acc r => mapSet acc r.1 (r.2 * wT)) [])).map
      Prod.fst).Nodup :=
    nodup_keys_foldl_semStep wS sr _ hndA
  have hmem : ∀ id x, (id, x) ∈ hybridMerge tr sr wT wS ↔
      mapGet (sr.foldl (semStep wS)
        (tr.foldl (fun acc r => mapSet acc r.1 (r.2 * wT)) [])) id =
        some x := by
    intro id x
    rw [show hybridMerge tr sr wT wS = sortScoredDesc
      (sr.foldl (semStep wS)
        (tr.foldl (fun acc r => mapSet acc r.1 (r.2 * wT)) [])) from rfl]
    rw [mem_sortScoredDesc, ← mapGet_eq_some_iff _ hndC]
  refine ⟨?_, ?_, ?_, ?_, ?_⟩
  · intro id t s htr hsr
    rw [hmem id (t * wT + s * wS),
      mapGet_foldl_semStep wS sr _ id h2,
      find?_key_of_mem_nodup sr id s h2 hsr,
      mapGet_foldl_mapSet (fun r => r.2 * wT) tr [] id h1,
      find?_key_of_mem_nodup tr id t h1 htr]
  · intro id t htr hsr
    rw [hmem id (t * wT),
      mapGet_foldl_semStep wS sr _ id h2,
      (find?_key_eq_none_iff sr id).mpr hsr,
      mapGet_foldl_mapSet (fun r => r.2 * wT) tr [] id h1,
      find?_key_of_mem_nodup tr id t h1 htr]
  · intro id s hsr htr
    rw [hmem id (s * wS),
      mapGet_foldl_semStep wS sr _ id h2,
      find?_key_of_mem_nodup sr id s h2 hsr,
      mapGet_foldl_mapSet (fun r => r.2 * wT) tr [] id h1,
      (find?_key_eq_none_iff tr id).mpr htr]
    rfl
  · rw [show hybridMerge tr sr wT wS = sortScoredDesc
      (sr.foldl (semStep wS)
        (tr.foldl (fun acc r => mapSet acc r.1 (r.2 * wT)) [])) from rfl]
    exact pairwise_sortScoredDesc _
  · have h12 : ("id1" : String) ≠ "id2" := by decide
    norm_num [hybridMerge, semStep, mapSet, mapGet, mapAdjust, mapHas,
      sortScoredDesc, insertScored, h12]

/-- Claim C4 (witness): the merge evaluated at the concrete example of
the claim. -/
theorem C4_hybrid_merge_witness :
    hybridMerge [("id1", 8/10)] [("id1", 6/10), ("id2", 5/10)] 1 1 =
      [("id1", 14/10), ("id2", 5/10)] :=
  (C4_hybrid_merge [("id1", 8/10)] [("id1", 6/10), ("id2", 5/10)] 1 1
    (by decide) (by decide)).2.2.2.2

/-! ## Lemmas about the cosine similarity -/

theorem normSq_nonneg (v : List ℝ) : 0 ≤ normSq v := by
  induction v with
  | nil => simp [normSq]
  | cons x t ih =>
      simp only [normSq, List.map_cons, List.sum_cons]
      exact add_nonneg (mul_self_nonneg x) ih

theorem normSq_pos (v : List ℝ) (x : ℝ) (hx : x ∈ v) (hx0 : x ≠ 0) :
    0 < normSq v := by
  induction v with
  | nil => simp at hx
  | cons y t ih =>
      simp only [normSq, List.map_cons, List.sum_cons]
      rcases List.mem_cons.mp hx with rfl | hxt
      · exact add_pos_of_pos_of_nonneg (mul_self_pos.mpr hx0)
          (normSq_nonneg t)
      · exact add_pos_of_nonneg_of_pos (mul_self_nonneg y) (ih hxt)

theorem dotProduct_self (v : List ℝ) : dotProduct v v = normSq v := by
  induction v with
  | nil => rfl
  | cons x t ih =>
      simp only [dotProduct, normSq, List.zipWith_cons_cons,
        List.map_cons, List.sum_cons] at ih ⊢
      rw [ih]

theorem normSq_eq_zero_forall (v : List ℝ) (h : normSq v = 0) :
    ∀ x ∈ v, x = 0 := by
  intro x hx
  by_contra hx0
  exact absurd h (ne_of_gt (normSq_pos v x hx hx0))

theorem dotProduct_zero_left (a : List ℝ) :
    ∀ b : List ℝ, (∀ x ∈ a, x = 0) → dotProduct a b = 0 := by
  induction a with
  | nil => intro b _; rfl
  | cons x t ih =>
      intro b h
      cases b with
      | nil => rfl
      | cons y s =>
          simp only [dotProduct, List.zipWith_cons_cons, List.sum_cons]
          rw [h x (List.mem_cons_self x t), zero_mul, zero_add]
          exact ih s (fun z hz => h z (List.mem_cons_of_mem x hz))

theorem dotProduct_zero_right (a : List ℝ) :
    ∀ b : List ℝ, (∀ x ∈ b, x = 0) → dotProduct a b = 0 := by
  induction a with
  | nil => intro b _; rfl
  | cons x t ih =>
      intro b h
      cases b with
      | nil => rfl
      | cons y s =>
          simp only [dotProduct, List.zipWith_cons_cons, List.sum_cons]
          rw [h y (List.mem_cons_self y s), mul_zero, zero_add]
          exact ih s (fun z hz => h z (List.mem_cons_of_mem y hz))

/-- Claim C8.  The vector store's cosine similarity satisfies
`similarity(v, v) = 1` exactly (hence within any floating tolerance)
for every vector with a non-zero entry, and `similarity(a, b) = 0`
whenever the lengths differ, rather than an error. -/
theorem C8_cosine_similarity :
    (∀ v : List ℝ, (∃ x ∈ v, x ≠ 0) → cosineSimilarity v v = .num 1) ∧
    (∀ a b : List ℝ, a.length ≠ b.length → cosineSimilarity a b = .num 0) := by
  constructor
  · intro v hv
    obtain ⟨x, hx, hx0⟩ := hv
    have hpos : 0 < normSq v := normSq_pos v x hx hx0
    unfold cosineSimilarity
    rw [if_neg (by simp)]
    rw [dotProduct_self, Real.mul_self_sqrt (normSq_nonneg v)]
    unfold jsDiv
    rw [if_neg (ne_of_gt hpos), div_self (ne_of_gt hpos)]
  · intro a b h
    unfold cosineSimilarity
    rw [if_pos h]

/-- Claim C8 (witness): the unit vector `[1]` has self-similarity
exactly 1, and the length-mismatched pair `([1, 0], [1])` has
similarity 0. -/
theorem C8_cosine_similarity_witness :
    cosineSimilarity [(1 : ℝ)] [(1 : ℝ)] = .num 1 ∧
    cosineSimilarity [(1 : ℝ), 0] [(1 : ℝ)] = .num 0 :=
  ⟨C8_cosine_similarity.1 [(1 : ℝ)] ⟨1, by simp, one_ne_zero⟩,
   C8_cosine_similarity.2 [(1 : ℝ), 0] [(1 : ℝ)] (by simp)⟩

/-- Claim C10.  `cosineSimilarity` is not total on equal-length
inputs: whenever one of the vectors has zero norm (for example the
all-zero vector), the final division is `0/0` and the result is `NaN`
rather than `0` or an error; `similaritySearch` then stores and sorts
that `NaN` score, as the singleton store with document embedding
`[0, 0]` queried with `[1, 2]` shows. -/
theorem C10_nan_similarity :
    (∀ a b : List ℝ, a.length = b.length →
       (normSq a = 0 ∨ normSq b = 0) → cosineSimilarity a b = .nan) ∧
    similaritySearch [("d1", { content := "zero", embedding := [0, 0] })]
      [(1 : ℝ), 2] 10 = [("d1", JSNum.nan)] := by
  have hmain : ∀ a b : List ℝ, a.length = b.length →
      (normSq a = 0 ∨ normSq b = 0) → cosineSimilarity a b = .nan := by
    intro a b hlen hz
    have hdot : dotProduct a b = 0 := by
      rcases hz with hza | hzb
      · exact dotProduct_zero_left a b (normSq_eq_zero_forall a hza)
      · exact dotProduct_zero_right a b (normSq_eq_zero_forall b hzb)
    have hden : Real.sqrt (normSq a) * Real.sqrt (normSq b) = 0 := by
      rcases hz with hza | hzb
      · rw [hza, Real.sqrt_zero, zero_mul]
      · rw [hzb, Real.sqrt_zero, mul_zero]
    unfold cosineSimilarity
    rw [if_neg (by simp [hlen]), hdot, hden]
    unfold jsDiv
    rw [if_pos rfl, if_pos rfl]
  refine ⟨hmain, ?_⟩
  have hcos : cosineSimilarity [(1 : ℝ), 2] [0, 0] = .nan := by
    apply hmain
    · rfl
    · right
      simp [normSq]
  unfold similaritySearch
  simp only [List.map_cons, List.map_nil]
  rw [hcos]
  rfl

/-- Claim C10 (witness): the zero vector against an equal-length
non-zero vector evaluates to `NaN`. -/
theorem C10_nan_similarity_witness :
    cosineSimilarity [(0 : ℝ)] [(3 : ℝ)] = .nan :=
  C10_nan_similarity.1 [(0 : ℝ)] [(3 : ℝ)] rfl
    (Or.inl (by simp [normSq]))

end VsAi
